import Mathlib

/-!
# GitSync — verification of the deployment-orchestration core

Shallow embedding of the GitSync repository (webhook trigger ingestion,
polling loop, and the deployment pipeline) together with proofs about the
spec's claims.  JavaScript strings are modelled as Lean `String` (compared
through their character lists; all the strings the program manipulates are
ASCII, so byte length and character length coincide), JSON payloads as
structures of optional fields, and the external collaborators (git, package
managers, the process-manager HTTP API, `child_process.exec`) as
environment-supplied result values, mirroring their documented result
shapes.
-/

namespace GitSync

/-! ## JavaScript-style primitives

Helpers that model JavaScript truthiness and the string operations the
source uses (`||` chains on possibly-missing strings, `String.replace` with
a string pattern, which replaces only the first occurrence). -/

/-- Truthiness of a nullable JS string: `null`, `undefined` and `""` are falsy. -/
def truthyS : Option String → Bool
  | some s => !s.data.isEmpty
  | none => false

/-- `v || d` for a nullable JS string `v` and string default `d`. -/
def jsOrStr (v : Option String) (d : String) : String :=
  match v with
  | some s => if s.data.isEmpty then d else s
  | none => d

/-- A chain `a || b || ... || null` of nullable JS strings: first truthy value, else `null`. -/
def jsCoalesce : List (Option String) → Option String
  | [] => none
  | a :: rest => if truthyS a then a else jsCoalesce rest

/-- A chain `a || b || ... || 0` of nullable JS numbers (`0` is falsy). -/
def jsCoalesceNat : List (Option Nat) → Nat
  | [] => 0
  | a :: rest =>
      match a with
      | some n => if n = 0 then jsCoalesceNat rest else n
      | none => jsCoalesceNat rest

/-- JS `s.startsWith(pat)`, modelled on character lists. -/
def strStarts (s pat : String) : Bool := pat.data.isPrefixOf s.data

/-- Character-list core of JS `s.replace(pat, '')` with a string pattern:
removes the first occurrence of `pat`, scanning left to right. -/
def replaceFirstList (pat : List Char) : List Char → List Char
  | [] => []
  | c :: rest =>
      if pat.isPrefixOf (c :: rest) then (c :: rest).drop pat.length
      else c :: replaceFirstList pat rest

/-- Does `pat` occur as a contiguous sublist of `s`? -/
def listContainsSub (pat : List Char) : List Char → Bool
  | [] => pat.isEmpty
  | c :: rest => pat.isPrefixOf (c :: rest) || listContainsSub pat rest

/-- `ref.replace('refs/heads/', '')` — the branch-derivation expression used by
all three webhook parsers (webhook.js lines 46, 67, 88). -/
def stripHeads (ref : String) : String :=
  String.mk (replaceFirstList "refs/heads/".data ref.data)

/-! ## Signature verification (src/webhook.js)

`createHmac('sha256', secret).update(payload).digest('hex')` is an external
crypto primitive; it is abstracted as a function `hm : String → String → List Nat`
returning the MAC bytes (each `< 256` for the real primitive).
`timingSafeEqual` throws when the two buffers have different byte lengths;
that fallible behaviour is modelled with `Except`, and the source's
`try/catch` turns the error into `false`. -/

/-- Lower-case hex digit for `n < 16` (`'0'..'9'`, `'a'..'f'`). -/
def hexDigit (n : Nat) : Char :=
  if n < 10 then Char.ofNat (48 + n) else Char.ofNat (87 + n)

/-- Two-character lower-case hex rendering of one byte. -/
def byteToHex (b : Nat) : List Char := [hexDigit (b / 16), hexDigit (b % 16)]

/-- `digest('hex')`: lower-case hex string of a byte list. -/
def bytesToHex (bs : List Nat) : String := String.mk ((bs.map byteToHex).flatten)

/-- Node's `crypto.timingSafeEqual` on string buffers: equality when lengths
match, a thrown error (modelled as `Except.error`) otherwise. -/
def timingSafeEqualE (a b : String) : Except String Bool :=
  if a.data.length = b.data.length then Except.ok (a == b)
  else Except.error "Input buffers must have the same byte length"

/-- webhook.js lines 11–21.  `signature` is the nullable
`X-Hub-Signature-256` header.  `if (!signature || !secret) return !secret;`
then a `timingSafeEqual` comparison whose exceptions yield `false`. -/
def verifyGitHubSignature (hm : String → String → List Nat)
    (payload : String) (signature : Option String) (secret : String) : Bool :=
  if !truthyS signature || secret.data.isEmpty then secret.data.isEmpty
  else
    let expected := "sha256=" ++ bytesToHex (hm secret payload)
    match timingSafeEqualE (signature.getD "") expected with
    | Except.ok r => r
    | Except.error _ => false

/-- webhook.js lines 29–32: plain token equality, skipped when no secret is
configured (`token` is the nullable `X-Gitlab-Token` header). -/
def verifyGitLabToken (token : Option String) (secret : String) : Bool :=
  if secret.data.isEmpty then true
  else token == some secret

/-- webhook.js line 37: `verifyGiteaSignature = verifyGitHubSignature`. -/
def verifyGiteaSignature (hm : String → String → List Nat)
    (payload : String) (signature : Option String) (secret : String) : Bool :=
  verifyGitHubSignature hm payload signature secret

/-- Flip bit `k` of the byte at index `i` of a byte list (one single-bit
corruption of a MAC). -/
def flipBit (bs : List Nat) (i k : Nat) : List Nat :=
  bs.set i ((bs.getD i 0) ^^^ (2 ^ k))

/-! ## Push-event parsers (src/webhook.js)

JSON bodies are duck-typed in the source; the model gathers every field any
of the three parsers reads into one structure of optional fields (a missing
JSON path is `none`). -/

/-- The webhook JSON payload fields read by the source. -/
structure JsonBody where
  ref : Option String := none
  objectKind : Option String := none
  repoName : Option String := none
  repoFullName : Option String := none
  projectName : Option String := none
  projectPathWithNamespace : Option String := none
  commits : Option (List String) := none
  totalCommitsCount : Option Nat := none
  pusherName : Option String := none
  pusherLogin : Option String := none
  pusherUsername : Option String := none
  userName : Option String := none
  headCommitId : Option String := none
  checkoutSha : Option String := none
  after : Option String := none
deriving DecidableEq, Repr

/-- The normalized trigger produced by the parsers (spec: `DeploymentTrigger`). -/
structure PushInfo where
  provider : String
  event : String
  branch : String
  repository : Option String
  fullName : Option String
  commits : Nat
  pusher : Option String
  headCommit : Option String
deriving DecidableEq, Repr

/-- webhook.js lines 44–58. -/
def parseGitHubPush (body : JsonBody) : PushInfo :=
  { provider := "github"
    event := "push"
    branch := stripHeads (jsOrStr body.ref "")
    repository := jsCoalesce [body.repoName]
    fullName := jsCoalesce [body.repoFullName]
    commits := jsCoalesceNat [body.commits.map List.length]
    pusher := jsCoalesce [body.pusherName]
    headCommit := jsCoalesce [body.headCommitId] }

/-- webhook.js lines 65–79. -/
def parseGitLabPush (body : JsonBody) : PushInfo :=
  { provider := "gitlab"
    event := "push"
    branch := stripHeads (jsOrStr body.ref "")
    repository := jsCoalesce [body.projectName, body.repoName]
    fullName := jsCoalesce [body.projectPathWithNamespace]
    commits := jsCoalesceNat [body.totalCommitsCount, body.commits.map List.length]
    pusher := jsCoalesce [body.userName]
    headCommit := jsCoalesce [body.checkoutSha, body.after] }

/-- webhook.js lines 86–100. -/
def parseGiteaPush (body : JsonBody) : PushInfo :=
  { provider := "gitea"
    event := "push"
    branch := stripHeads (jsOrStr body.ref "")
    repository := jsCoalesce [body.repoName]
    fullName := jsCoalesce [body.repoFullName]
    commits := jsCoalesceNat [body.commits.map List.length]
    pusher := jsCoalesce [body.pusherLogin, body.pusherUsername]
    headCommit := jsCoalesce [body.after] }

/-- A webhook body with every optional field absent. -/
def emptyBody : JsonBody := {}

/-! ## Configuration (config.yaml repo entries, as read by the source) -/

/-- The `dependencies` entry of a repo config (`{ type: npm|bun|yarn|pip|none, venv? }`). -/
structure DepConfig where
  depType : String
  venv : Option String := none
deriving DecidableEq, Repr

/-- One entry of the YAML `build` shapes accepted by `getBuildCommands`:
a plain string, an object with a `command` (possibly empty, hence optional
semantics via truthiness) and optional `cwd`, or anything else (normalized
away). -/
inductive BuildItem
  | strCmd (s : String)
  | objCmd (command : String) (cwd : Option String)
  | invalid
deriving DecidableEq, Repr

/-- The `build` config value: a single string, an object with `command`
and/or `commands` fields, or a direct array (deployer.js `getBuildCommands`
supports all four shapes). -/
inductive BuildSpec
  | strSpec (s : String)
  | objSpec (command : Option String) (cwd : Option String)
      (commands : Option (List BuildItem))
  | arrSpec (items : List BuildItem)
deriving DecidableEq, Repr

/-- A repository configuration entry (spec: `RepositoryConfig`).
`registerScripts` keeps only the script names; the source forwards the full
script-config object to the process manager and records `scriptConfig.name`. -/
structure RepoConfig where
  name : String
  path : String
  branch : String
  repoUrl : Option String := none
  dependencies : Option DepConfig := none
  build : Option BuildSpec := none
  restartScripts : List String := []
  registerScripts : List String := []
deriving DecidableEq, Repr

/-- The slice of the full configuration the webhook server reads. -/
structure ServerConfig where
  secret : String
  repos : List RepoConfig
deriving DecidableEq, Repr

/-! ## Webhook HTTP handler (src/webhook.js `createWebhookServer`) -/

/-- An incoming HTTP request: method, path, the provider-detection and
signature headers (`none` = header absent), the raw body text and its JSON
parse (`none` = `JSON.parse` threw). -/
structure WebRequest where
  method : String
  path : String
  githubEvent : Option String := none
  gitlabToken : Option String := none
  giteaEvent : Option String := none
  hubSignature : Option String := none
  giteaSignature : Option String := none
  rawBody : String := ""
  body : Option JsonBody := none
deriving Repr

/-- The distinct responses the fetch handler produces. -/
inductive WebResponse
  | health
  | invalidJson
  | invalidSignature
  | ignored
  | noMatchingRepo
  | triggered (repo : String) (branch : String)
  | notFound
deriving DecidableEq, Repr

/-- HTTP status of each response. -/
def statusOf : WebResponse → Nat
  | .health => 200
  | .invalidJson => 400
  | .invalidSignature => 401
  | .ignored => 200
  | .noMatchingRepo => 200
  | .triggered _ _ => 200
  | .notFound => 404

/-- webhook.js lines 134–165: provider detection from headers/path, computing
the local variables `isValid` and `pushInfo`. -/
def detectVerifyParse (secret : String) (hm : String → String → List Nat)
    (req : WebRequest) (body : JsonBody) : Bool × Option PushInfo :=
  if truthyS req.githubEvent || req.path == "/webhook/github" then
    (verifyGitHubSignature hm req.rawBody req.hubSignature secret,
     if req.githubEvent == some "push" || truthyS body.ref then
       some (parseGitHubPush body) else none)
  else if truthyS req.gitlabToken || req.path == "/webhook/gitlab" then
    (verifyGitLabToken req.gitlabToken secret,
     if body.objectKind == some "push" || truthyS body.ref then
       some (parseGitLabPush body) else none)
  else if truthyS req.giteaEvent || req.path == "/webhook/gitea" then
    (verifyGiteaSignature hm req.rawBody req.giteaSignature secret,
     if req.giteaEvent == some "push" || truthyS body.ref then
       some (parseGiteaPush body) else none)
  else
    (true,
     if truthyS body.ref then some (parseGitHubPush body) else none)

/-- webhook.js lines 179–187: the matching predicate inside `config.repos.find`. -/
def matchesRepo (info : PushInfo) (r : RepoConfig) : Bool :=
  if r.branch != info.branch then false
  else if some r.name == info.repository then true
  else if some r.name == info.fullName then true
  else false

/-- `config.repos.find(...)` for a parsed push. -/
def findMatchingRepo (repos : List RepoConfig) (info : PushInfo) : Option RepoConfig :=
  repos.find? (matchesRepo info)

/-- webhook.js lines 113–211: the `fetch` handler.  Returns the HTTP response
together with the repo (if any) for which `onPush` was invoked — the source
calls `onPush(matchingRepo, pushInfo)` fire-and-forget (line 198), without
awaiting the deployment, and responds immediately. -/
def handleFetch (cfg : ServerConfig) (hm : String → String → List Nat)
    (req : WebRequest) : WebResponse × Option RepoConfig :=
  if req.path == "/health" && req.method == "GET" then
    (WebResponse.health, none)
  else if req.method == "POST" && strStarts req.path "/webhook" then
    match req.body with
    | none => (WebResponse.invalidJson, none)
    | some body =>
        let vp := detectVerifyParse cfg.secret hm req body
        if !vp.1 then (WebResponse.invalidSignature, none)
        else
          match vp.2 with
          | none => (WebResponse.ignored, none)
          | some info =>
              match findMatchingRepo cfg.repos info with
              | none => (WebResponse.noMatchingRepo, none)
              | some r => (WebResponse.triggered r.name info.branch, some r)
  else (WebResponse.notFound, none)

/-! ## Deployment pipeline (deployer.js, the build-aware version) -/

/-- Result of `ensureRepo` (gitPull.js): success/cloned flags and error text. -/
structure EnsureResult where
  success : Bool
  cloned : Bool := false
  existed : Bool := false
  error : Option String := none
deriving DecidableEq, Repr

/-- Result of `gitPull` (gitPull.js): success, changed flag, message, files. -/
structure PullResult where
  success : Bool
  changed : Bool
  message : String := ""
  files : List String := []
deriving DecidableEq, Repr

/-- Result of `installDependencies` (dependencyInstaller.js). -/
structure InstallResult where
  success : Bool
  skipped : Bool := false
  error : Option String := none
deriving DecidableEq, Repr

/-- Result of a TaskServer API call (taskServerClient.js). -/
structure ApiResult where
  success : Bool
  error : Option String := none
deriving DecidableEq, Repr

/-- A normalized build command: `{ command, cwd? }`. -/
structure BuildCmd where
  command : String
  cwd : Option String := none
deriving DecidableEq, Repr

/-- One entry of the build step's `buildResults` list. -/
structure BuildCmdResult where
  command : String
  cwd : Option String
  success : Bool
  error : Option String := none
deriving DecidableEq, Repr

/-- deployer.js `normalize` (inside `getBuildCommands`): strings become
commands, objects need a truthy `command` and get `cwd: item.cwd || null`,
anything else is dropped. -/
def normalizeBuildItem : BuildItem → Option BuildCmd
  | .strCmd s => some { command := s }
  | .objCmd c w => if c.data.isEmpty then none else some { command := c, cwd := jsCoalesce [w] }
  | .invalid => none

/-- deployer.js lines 160–194: resolve the `build` config into a command list.
`!repoConfig.build` also rejects the empty string (falsy). -/
def getBuildCommands (cfg : RepoConfig) : List BuildCmd :=
  match cfg.build with
  | none => []
  | some (.strSpec s) => if s.data.isEmpty then [] else [{ command := s }]
  | some (.objSpec cmd cw cmds) =>
      match cmd with
      | some c =>
          if c.data.isEmpty then
            match cmds with
            | some items => items.filterMap normalizeBuildItem
            | none => []
          else [{ command := c, cwd := jsCoalesce [cw] }]
      | none =>
          match cmds with
          | some items => items.filterMap normalizeBuildItem
          | none => []
  | some (.arrSpec items) => items.filterMap normalizeBuildItem

/-- pathUtils.js `expandPath`: tilde expansion against the home directory
(`path.join(homedir(), p.slice(2))` modelled as separator concatenation). -/
def expandPath (home p : String) : String :=
  if p.data.isEmpty then p
  else if strStarts p "~/" then home ++ "/" ++ String.mk (p.data.drop 2)
  else if p == "~" then home
  else p

/-- deployer.js lines 307–313: working-directory resolution for one build
command (`join(workDir, cwd)` modelled as separator concatenation). -/
def resolveWorkDir (home repoPath : String) (cwd : Option String) : String :=
  let workDir := expandPath home repoPath
  match cwd with
  | none => workDir
  | some c =>
      if c.data.isEmpty then workDir
      else if strStarts c "/" then expandPath home c
      else workDir ++ "/" ++ c

/-- The per-step records pushed onto `results.steps` by `deploy`.  The
pre-build stop-script step (step 2.5) pushes nothing — the source discards
the `stopScript` results — so it has no constructor. -/
inductive StepRec
  | ensureRepo (r : EnsureResult)
  | gitPull (r : PullResult)
  | installDeps (r : InstallResult)
  | installDepsSkipped
  | build (results : List BuildCmdResult)
  | buildSkipped
  | registerScripts (results : List (String × ApiResult))
  | restartScripts (results : List (String × ApiResult))
  | restartSkipped
deriving DecidableEq, Repr

/-- The terminal `results` object of `deploy` (spec: `PipelineState`);
`duration`/`trigger` are dropped (wall-clock time and a pass-through value). -/
structure DeployResult where
  repo : String
  success : Bool
  steps : List StepRec
  skipped : Bool := false
  error : Option String := none
deriving DecidableEq, Repr

/-- The external collaborators `deploy` calls, supplied as their result
values: git (ensureRepo/gitPull), the dependency installer, `execAsync` for
build commands (`Except.error msg` = the command threw with `error.message`),
and the TaskServer client (stop/add/restart by script name). -/
structure DeployEnv where
  home : String := "/root"
  ensureRepo : EnsureResult
  gitPull : PullResult
  installDeps : InstallResult
  execCmd : String → String → Except String Unit
  stopScript : String → ApiResult
  addScript : String → ApiResult
  restartScript : String → ApiResult

/-- `results.steps.find(s => s.step === 'ensure-repo')` -/
def isEnsureStep : StepRec → Bool
  | .ensureRepo _ => true
  | _ => false

/-- `results.steps.find(s => s.step === 'ensure-repo')?.cloned` (undefined,
hence falsy, when the step is absent). -/
def wasClonedIn (steps : List StepRec) : Bool :=
  match steps.find? isEnsureStep with
  | some (.ensureRepo r) => r.cloned
  | _ => false

/-- deployer.js lines 306–333: the build loop.  Executes commands in order in
their resolved working directories; the first `execAsync` exception stops the
loop and produces the fatal error message `Build failed: <command> - <msg>`.
Returns the accumulated `buildResults` (in execution order) and the fatal
error, if any. -/
def runBuilds (env : DeployEnv) (repoPath : String) :
    List BuildCmd → List BuildCmdResult → List BuildCmdResult × Option String
  | [], acc => (acc.reverse, none)
  | c :: rest, acc =>
      match env.execCmd c.command (resolveWorkDir env.home repoPath c.cwd) with
      | Except.ok _ =>
          runBuilds env repoPath rest
            ({ command := c.command, cwd := c.cwd, success := true } :: acc)
      | Except.error msg =>
          (({ command := c.command, cwd := c.cwd, success := false,
              error := some msg } :: acc).reverse,
           some ("Build failed: " ++ c.command ++ " - " ++ msg))

/-- deployer.js lines 283–389: the tail of `deploy` after the install step —
pre-build stop scripts (results discarded by the source), build, register
(fresh clones only), restart, and the terminal result.  `stepsIn` is the step
list accumulated so far. -/
def deployTail (env : DeployEnv) (cfg : RepoConfig)
    (stepsIn : List StepRec) (wasCloned : Bool) : DeployResult :=
  let buildCommands := getBuildCommands cfg
  -- Step 2.5: stop scripts pre-build; call results are not recorded in steps
  let stopResults : List ApiResult :=
    if decide (cfg.restartScripts.length > 0) && decide (buildCommands.length > 0) then
      cfg.restartScripts.map env.stopScript
    else []
  let _ := stopResults
  -- Step 3: run build commands
  if buildCommands.length > 0 then
    let br := runBuilds env cfg.path buildCommands []
    match br.2 with
    | some e =>
        { repo := cfg.name, success := false,
          steps := stepsIn ++ [StepRec.build br.1], error := some e }
    | none =>
        let steps3 := stepsIn ++ [StepRec.build br.1]
        let steps4 :=
          if wasCloned && decide (cfg.registerScripts.length > 0) then
            steps3 ++ [StepRec.registerScripts
              (cfg.registerScripts.map (fun s => (s, env.addScript s)))]
          else steps3
        let steps5 :=
          if decide (cfg.restartScripts.length > 0) then
            steps4 ++ [StepRec.restartScripts
              (cfg.restartScripts.map (fun s => (s, env.restartScript s)))]
          else steps4 ++ [StepRec.restartSkipped]
        { repo := cfg.name, success := true, steps := steps5 }
  else
    let steps3 := stepsIn ++ [StepRec.buildSkipped]
    let steps4 :=
      if wasCloned && decide (cfg.registerScripts.length > 0) then
        steps3 ++ [StepRec.registerScripts
          (cfg.registerScripts.map (fun s => (s, env.addScript s)))]
      else steps3
    let steps5 :=
      if decide (cfg.restartScripts.length > 0) then
        steps4 ++ [StepRec.restartScripts
          (cfg.restartScripts.map (fun s => (s, env.restartScript s)))]
      else steps4 ++ [StepRec.restartSkipped]
    { repo := cfg.name, success := true, steps := steps5 }

/-- deployer.js lines 266–281 followed by the tail: Step 2 installs
dependencies when a dependency config with type ≠ `none` is present (a
failed-and-not-skipped install is fatal), otherwise records the skipped
marker, then continues with `deployTail`. -/
def deployFromInstall (env : DeployEnv) (cfg : RepoConfig)
    (stepsIn : List StepRec) (wasCloned : Bool) : DeployResult :=
  match cfg.dependencies with
  | some d =>
      if d.depType != "none" then
        let ir := env.installDeps
        let steps2 := stepsIn ++ [StepRec.installDeps ir]
        if !ir.success && !ir.skipped then
          { repo := cfg.name, success := false, steps := steps2,
            error := some ("Dependency installation failed: " ++ ir.error.getD "undefined") }
        else deployTail env cfg steps2 wasCloned
      else deployTail env cfg (stepsIn ++ [StepRec.installDepsSkipped]) wasCloned
  | none => deployTail env cfg (stepsIn ++ [StepRec.installDepsSkipped]) wasCloned

/-- deployer.js lines 204–390: the full pipeline.  Early returns of the
source become nested conditionals; `results.success` starts `true` and is
set `false` exactly on the fatal paths. -/
def deploy (env : DeployEnv) (cfg : RepoConfig) : DeployResult :=
  -- Step 0: ensure repo exists (only when a repoUrl is configured)
  let step0 : List StepRec :=
    match cfg.repoUrl with
    | some _ => [StepRec.ensureRepo env.ensureRepo]
    | none => []
  if cfg.repoUrl.isSome && !env.ensureRepo.success then
    { repo := cfg.name, success := false, steps := step0,
      error := some ("Failed to ensure repo: " ++ env.ensureRepo.error.getD "undefined") }
  else
    -- Step 1: git pull
    let steps1 := step0 ++ [StepRec.gitPull env.gitPull]
    if !env.gitPull.success then
      { repo := cfg.name, success := false, steps := steps1,
        error := some ("Git pull failed: " ++ env.gitPull.message) }
    else
      -- Short-circuit: no changes and not a fresh clone
      let wasCloned := wasClonedIn steps1
      if !env.gitPull.changed && !wasCloned then
        { repo := cfg.name, success := true, steps := steps1, skipped := true }
      else
        -- Step 2 onwards
        deployFromInstall env cfg steps1 wasCloned

/-! ## Polling loop (src/polling.js)

One tick of the `poll` function: a sequential `for (const repo of repos)`
whose body is wrapped in `try { ... } catch` — a rejected `checkForUpdates`
promise is caught and logged, and the loop continues with the next repo.
`checkForUpdates` itself resolves `{success:true, behind, ahead, ...}` or
`{success:false, error}`; a thrown error inside the body is the third case. -/

/-- What the git collaborator reports for one repo during a poll tick. -/
inductive CheckOutcome
  | ok (behind : Nat) (ahead : Nat)
  | failed (err : String)
  | thrown (err : String)
deriving DecidableEq, Repr

/-- What the tick did for one repo (trigger fired, up to date, check
reported failure, or exception caught by the `catch`). -/
inductive PollEvent
  | triggered
  | upToDate
  | checkFailed (err : String)
  | errored (err : String)
deriving DecidableEq, Repr

/-- The body of the `try` block for one repo (polling.js lines 26–40):
may throw (`Except.error`).  `status.hasUpdates` is `behind > 0`
(gitPull.js `checkForUpdates`); on updates the deployment is triggered
fire-and-forget (line 33). -/
def pollCheckBody (check : RepoConfig → CheckOutcome) (r : RepoConfig) :
    Except String (String × PollEvent) :=
  match check r with
  | .ok behind _ =>
      if behind > 0 then Except.ok (r.name, PollEvent.triggered)
      else Except.ok (r.name, PollEvent.upToDate)
  | .failed e => Except.ok (r.name, PollEvent.checkFailed e)
  | .thrown e => Except.error e

/-- One poll tick over the repo list (polling.js lines 22–44): sequential
iteration, each body wrapped in `try/catch`, the `catch` logging the error
and continuing. -/
def pollTick (check : RepoConfig → CheckOutcome) :
    List RepoConfig → List (String × PollEvent)
  | [] => []
  | r :: rest =>
      let ev :=
        match pollCheckBody check r with
        | Except.ok v => v
        | Except.error e => (r.name, PollEvent.errored e)
      ev :: pollTick check rest

/-! ## Trigger concurrency (C1)

The source has no per-repository lock: the webhook handler calls
`onPush(matchingRepo, pushInfo)` without awaiting it (webhook.js lines
196–200) and the poll loop calls `onUpdate(repo)` without awaiting it
(polling.js lines 32–35); both consult no shared in-flight state before
doing so.  The system is modelled as a trace of deployment start/finish
events: a trigger step appends a `start` unconditionally — exactly because
the source checks nothing — and a `finish` step ends one in-flight
deployment. -/

/-- Deployment lifecycle events for one repository name. -/
inductive SysEvent
  | start (repo : String)
  | finish (repo : String)
deriving DecidableEq, Repr

/-- Number of `start r` events in a trace. -/
def startCount (t : List SysEvent) (r : String) : Nat :=
  t.countP (fun e => e == SysEvent.start r)

/-- Number of `finish r` events in a trace. -/
def finishCount (t : List SysEvent) (r : String) : Nat :=
  t.countP (fun e => e == SysEvent.finish r)

/-- Deployments currently in flight for repository `r`. -/
def inFlight (t : List SysEvent) (r : String) : Nat :=
  startCount t r - finishCount t r

/-- One step of the trigger/deploy system.  `webhook`: an HTTP request for
which `handleFetch` invoked `onPush` starts a deployment immediately
(fire-and-forget, no lock consulted).  `pollTrigger`: the poll loop saw a
configured repo `behind > 0` commits and fired `onUpdate` likewise.
`finish`: an in-flight deployment completes. -/
inductive SysStep (cfg : ServerConfig) (hm : String → String → List Nat) :
    List SysEvent → List SysEvent → Prop
  | webhook (t : List SysEvent) (req : WebRequest) (r : RepoConfig)
      (h : (handleFetch cfg hm req).2 = some r) :
      SysStep cfg hm t (t ++ [SysEvent.start r.name])
  | pollTrigger (t : List SysEvent) (r : RepoConfig) (behind ahead : Nat)
      (hmem : r ∈ cfg.repos) (hb : 0 < behind) :
      SysStep cfg hm t (t ++ [SysEvent.start r.name])
  | finish (t : List SysEvent) (r : String)
      (h : finishCount t r < startCount t r) :
      SysStep cfg hm t (t ++ [SysEvent.finish r])

/-- Traces reachable from the idle system. -/
inductive Reachable (cfg : ServerConfig) (hm : String → String → List Nat) :
    List SysEvent → Prop
  | nil : Reachable cfg hm []
  | step {t t' : List SysEvent} :
      Reachable cfg hm t → SysStep cfg hm t t' → Reachable cfg hm t'

/-! ### Concrete system used to exercise the trigger paths -/

/-- A configured repository. -/
def demoRepo : RepoConfig := { name := "x", path := "/srv/x", branch := "main" }

/-- A server configuration with no webhook secret and one repo. -/
def demoServerCfg : ServerConfig := { secret := "", repos := [demoRepo] }

/-- A stand-in HMAC collaborator (its value is irrelevant here). -/
def demoHm : String → String → List Nat := fun _ _ => [0]

/-- A generic `POST /webhook` push request for branch `main` of repo `x`. -/
def demoReq : WebRequest :=
  { method := "POST", path := "/webhook",
    body := some { ref := some "refs/heads/main", repoName := some "x" } }

/-- A push body whose ref does not start with `refs/heads/` but contains it
further in (a tag ref wrapping a branch-like name). -/
def tagRefBody : JsonBody := { ref := some "refs/tags/refs/heads/v1" }

/-- Per-repo event of one poll tick, as a function of the collaborator's
report: updates trigger a deployment, an up-to-date or failed check logs,
and a thrown check is caught by the loop's `try/catch`. -/
def tickEvent : CheckOutcome → PollEvent
  | .ok behind _ => if behind > 0 then .triggered else .upToDate
  | .failed e => .checkFailed e
  | .thrown e => .errored e

/-- A GitLab-authenticated request whose body is not a push event. -/
def gitlabNonPushReq : WebRequest :=
  { method := "POST", path := "/webhook/gitlab", gitlabToken := some "tok",
    body := some emptyBody }

/-! ### Observations on pipeline step records -/

/-- A step record that sets the pipeline's `success` flag to `false` in the
source: a failed EnsureRepo, a failed Pull, a failed-and-not-skipped
dependency install, or a build-results list containing a failed command. -/
def fatalStep : StepRec → Bool
  | .ensureRepo r => !r.success
  | .gitPull r => !r.success
  | .installDeps r => !r.success && !r.skipped
  | .installDepsSkipped => false
  | .build rs => rs.any (fun b => !b.success)
  | .buildSkipped => false
  | .registerScripts _ => false
  | .restartScripts _ => false
  | .restartSkipped => false

/-- A record of the RegisterScripts / RestartScripts lifecycle steps
(including the restart step's skipped marker). -/
def isLifecycleStep : StepRec → Bool
  | .registerScripts _ => true
  | .restartScripts _ => true
  | .restartSkipped => true
  | _ => false

/-- The build-results entry for a command that succeeded. -/
def mkOkEntry (c : BuildCmd) : BuildCmdResult :=
  { command := c.command, cwd := c.cwd, success := true }

/-- The build-results entry for the command that failed with message `e`. -/
def mkFailEntry (c : BuildCmd) (e : String) : BuildCmdResult :=
  { command := c.command, cwd := c.cwd, success := false, error := some e }

/-- Every failure a step record carries: the identifier of each failed
per-entry result stored inside it, or the step name for a failed
ensure/pull/install.  A stop-script failure can never appear here: the
source records nothing for step 2.5. -/
def recordedFailures : StepRec → List String
  | .ensureRepo r => if r.success then [] else ["ensure-repo"]
  | .gitPull r => if r.success then [] else ["git-pull"]
  | .installDeps r => if r.success then [] else ["install-deps"]
  | .installDepsSkipped => []
  | .build rs => (rs.filter (fun b => !b.success)).map (fun b => b.command)
  | .buildSkipped => []
  | .registerScripts rs => (rs.filter (fun x => !x.2.success)).map Prod.fst
  | .restartScripts rs => (rs.filter (fun x => !x.2.success)).map Prod.fst
  | .restartSkipped => []

/-! ### Concrete environments and configs for deploy witnesses -/

/-- An environment where every collaborator succeeds and the pull reports no
change. -/
def quietEnv : DeployEnv :=
  { ensureRepo := { success := true }
    gitPull := { success := true, changed := false }
    installDeps := { success := true }
    execCmd := fun _ _ => Except.ok ()
    stopScript := fun _ => { success := true }
    addScript := fun _ => { success := true }
    restartScript := fun _ => { success := true } }

/-- A repo config with no remote URL and no build/restart configuration. -/
def plainCfg : RepoConfig := { name := "x", path := "/srv/x", branch := "main" }

/-- An environment where the pull brings changes, `make a` succeeds and
`make b` fails, and every TaskServer call succeeds. -/
def buildFailEnv : DeployEnv :=
  { ensureRepo := { success := true }
    gitPull := { success := true, changed := true }
    installDeps := { success := true }
    execCmd := fun c _ => if c == "make b" then Except.error "exit 1" else Except.ok ()
    stopScript := fun _ => { success := true }
    addScript := fun _ => { success := true }
    restartScript := fun _ => { success := true } }

/-- A repo config with two build commands, the second in a subdirectory. -/
def buildCfg : RepoConfig :=
  { name := "x", path := "/srv/x", branch := "main",
    build := some (BuildSpec.arrSpec
      [BuildItem.strCmd "make a", BuildItem.objCmd "make b" (some "client")]),
    registerScripts := ["svc"], restartScripts := ["svc"] }

/-- An environment where the stop-script collaborator fails (script not
running) while everything else succeeds. -/
def stopFailEnv : DeployEnv :=
  { ensureRepo := { success := true }
    gitPull := { success := true, changed := true }
    installDeps := { success := true }
    execCmd := fun _ _ => Except.ok ()
    stopScript := fun _ => { success := false, error := some "not running" }
    addScript := fun _ => { success := true }
    restartScript := fun _ => { success := true } }

/-- A repo config with one build command and one restart-target script, so
the pre-build stop step runs. -/
def stopCfg : RepoConfig :=
  { name := "x", path := "/srv/x", branch := "main",
    build := some (BuildSpec.strSpec "make"), restartScripts := ["s1"] }

/-! ## Helper lemmas -/

theorem data_append (a b : String) : (a ++ b).data = a.data ++ b.data := by
  cases a; cases b; rfl

theorem replaceFirstList_of_isPre (pat s : List Char)
    (h : pat.isPrefixOf s = true) : replaceFirstList pat s = s.drop pat.length := by
  cases s with
  | nil =>
      cases pat with
      | nil => rfl
      | cons p ps => simp [List.isPrefixOf] at h
  | cons c rest => simp [replaceFirstList, h]

theorem replaceFirstList_of_not_contains (pat : List Char) :
    ∀ s : List Char, listContainsSub pat s = false → replaceFirstList pat s = s := by
  intro s
  induction s with
  | nil => intro _; rfl
  | cons c rest ih =>
      intro h
      simp only [listContainsSub, Bool.or_eq_false_iff] at h
      simp [replaceFirstList, h.1, ih h.2]

theorem hexDigit_inj {m n : Nat} (hm : m < 16) (hn : n < 16)
    (h : hexDigit m = hexDigit n) : m = n := by
  have key : ∀ a b : Fin 16, hexDigit a.val = hexDigit b.val → a = b := by decide
  simpa using congrArg Fin.val (key ⟨m, hm⟩ ⟨n, hn⟩ h)

theorem byteToHex_inj {a b : Nat} (ha : a < 256) (hb : b < 256)
    (h : byteToHex a = byteToHex b) : a = b := by
  simp only [byteToHex, List.cons.injEq, and_true] at h
  have e1 : a / 16 = b / 16 := hexDigit_inj (by omega) (by omega) h.1
  have e2 : a % 16 = b % 16 := hexDigit_inj (by omega) (by omega) h.2
  omega

theorem hexFlat_inj : ∀ xs ys : List Nat, xs.length = ys.length →
    (∀ x ∈ xs, x < 256) → (∀ y ∈ ys, y < 256) →
    (xs.map byteToHex).flatten = (ys.map byteToHex).flatten → xs = ys := by
  intro xs
  induction xs with
  | nil =>
      intro ys hlen _ _ _
      cases ys with
      | nil => rfl
      | cons y ys => simp at hlen
  | cons x xs ih =>
      intro ys hlen hx hy heq
      cases ys with
      | nil => simp at hlen
      | cons y ys =>
          simp only [List.map_cons, List.flatten_cons, byteToHex, List.cons_append,
            List.nil_append, List.cons.injEq] at heq
          obtain ⟨h1, h2, h3⟩ := heq
          have hxy : x = y :=
            byteToHex_inj (hx x (by simp)) (hy y (by simp))
              (by simp [byteToHex, h1, h2])
          subst hxy
          have htail : xs = ys :=
            ih ys (by simpa using hlen)
              (fun a ha => hx a (by simp [ha])) (fun a ha => hy a (by simp [ha])) h3
          simp [htail]

theorem hexFlat_length : ∀ bs : List Nat, ((bs.map byteToHex).flatten).length = 2 * bs.length := by
  intro bs
  induction bs with
  | nil => rfl
  | cons b rest ih =>
      simp only [List.map_cons, List.flatten_cons, List.length_append, ih, byteToHex,
        List.length_cons, List.length_nil]
      omega

theorem bytesToHex_length (bs : List Nat) :
    (bytesToHex bs).data.length = 2 * bs.length := hexFlat_length bs

theorem xor_lt_256 {b c : Nat} (hb : b < 256) (hc : c < 256) : b ^^^ c < 256 := by
  have h := Nat.bitwise_lt_two_pow (f := bne) (n := 8) (x := b) (y := c)
    (by simpa using hb) (by simpa using hc)
  simpa [HXor.hXor, Xor.xor, Nat.xor] using h

theorem xor_two_pow_ne (b k : Nat) : b ^^^ 2 ^ k ≠ b := by
  intro h
  have h2 : b ^^^ 2 ^ k = b ^^^ 0 := by simpa using h
  have h3 := Nat.xor_right_inj.mp h2
  exact absurd h3 (Nat.pos_iff_ne_zero.mp (pow_pos (by norm_num) k))

theorem getD_set_self : ∀ (l : List Nat) (i v : Nat), i < l.length →
    (l.set i v).getD i 0 = v := by
  intro l
  induction l with
  | nil => intro i v h; simp at h
  | cons a as ih =>
      intro i v h
      cases i with
      | zero => rfl
      | succ i => simpa [List.set, List.getD] using ih i v (by simpa using h)

theorem set_ne_self {l : List Nat} {i v : Nat} (hi : i < l.length)
    (hv : v ≠ l.getD i 0) : l.set i v ≠ l := by
  intro h
  have h2 := congrArg (fun t => t.getD i 0) h
  simp only at h2
  rw [getD_set_self l i v hi] at h2
  exact hv h2

theorem getD_lt (l : List Nat) (i : Nat) (hi : i < l.length)
    (hl : ∀ b ∈ l, b < 256) : l.getD i 0 < 256 := by
  rw [List.getD_eq_getElem l 0 hi]
  exact hl _ (List.get_mem l i hi)

theorem flipBit_length (bs : List Nat) (i k : Nat) :
    (flipBit bs i k).length = bs.length := by simp [flipBit]

theorem flipBit_ne {bs : List Nat} {i k : Nat} (hi : i < bs.length) :
    flipBit bs i k ≠ bs :=
  set_ne_self hi (xor_two_pow_ne (bs.getD i 0) k)

theorem flipBit_bound {bs : List Nat} {i k : Nat} (hb : ∀ b ∈ bs, b < 256)
    (hi : i < bs.length) (hk : k < 8) : ∀ x ∈ flipBit bs i k, x < 256 := by
  intro x hx
  rcases List.mem_or_eq_of_mem_set hx with h | h
  · exact hb x h
  · rw [h]
    exact xor_lt_256 (getD_lt bs i hi hb)
      (by calc 2 ^ k < 2 ^ 8 := Nat.pow_lt_pow_right (by norm_num) hk
            _ = 256 := by norm_num)

theorem sha_headers_ne {A B : List Nat} (hlen : A.length = B.length)
    (hA : ∀ x ∈ A, x < 256) (hB : ∀ y ∈ B, y < 256) (hne : A ≠ B) :
    ("sha256=" ++ bytesToHex A) ≠ ("sha256=" ++ bytesToHex B) := by
  intro h
  apply hne
  have hd := congrArg String.data h
  rw [data_append, data_append] at hd
  have h2 := List.append_cancel_left hd
  exact hexFlat_inj A B hlen hA hB h2

theorem truthy_sha (y : String) : truthyS (some ("sha256=" ++ y)) = true := by
  simp [truthyS, data_append]

/-! ## Claim theorems -/

/-- C2: for every HMAC collaborator, secret `s` and payload `p`, the webhook
verifier accepts the genuine header `"sha256=" + hex(HMAC(s, p))`; with a
configured (non-empty) secret it rejects any header obtained by flipping one
single bit (bit `k` of byte `i`) of the MAC; and with no configured secret it
accepts every payload and every signature header. -/
theorem verifyGitHubSignature_c2 (hm : String → String → List Nat) (s p : String)
    (hbytes : ∀ b ∈ hm s p, b < 256) :
    verifyGitHubSignature hm p (some ("sha256=" ++ bytesToHex (hm s p))) s = true
    ∧ (∀ i k, i < (hm s p).length → k < 8 → s ≠ "" →
        verifyGitHubSignature hm p
          (some ("sha256=" ++ bytesToHex (flipBit (hm s p) i k))) s = false)
    ∧ (∀ payload sig, verifyGitHubSignature hm payload sig "" = true) := by
  refine ⟨?_, ?_, ?_⟩
  · by_cases hs : s.data.isEmpty = true
    · simp [verifyGitHubSignature, hs]
    · have hs' : s.data.isEmpty = false := by simpa using hs
      simp [verifyGitHubSignature, hs', truthy_sha, timingSafeEqualE]
  · intro i k hi hk hsne
    have hs : s.data.isEmpty = false := by
      obtain ⟨sd⟩ := s
      cases sd with
      | nil => exact absurd rfl hsne
      | cons a l => rfl
    have hlen2 : (bytesToHex (flipBit (hm s p) i k)).length
        = (bytesToHex (hm s p)).length := by
      show (bytesToHex (flipBit (hm s p) i k)).data.length
        = (bytesToHex (hm s p)).data.length
      rw [bytesToHex_length, bytesToHex_length, flipBit_length]
    have hne := sha_headers_ne (A := flipBit (hm s p) i k) (B := hm s p)
      (by simp [flipBit_length]) (flipBit_bound hbytes hi hk) hbytes (flipBit_ne hi)
    simp [verifyGitHubSignature, hs, truthy_sha, timingSafeEqualE, hlen2, hne]
  · intro payload sig
    simp [verifyGitHubSignature]

/-- Witness for C2 at a concrete MAC, secret and payload. -/
theorem verifyGitHubSignature_c2_witness :
    (∀ b ∈ [(171 : Nat)], b < 256)
    ∧ verifyGitHubSignature (fun _ _ => [171]) "payload"
        (some ("sha256=" ++ bytesToHex [171])) "secret" = true
    ∧ verifyGitHubSignature (fun _ _ => [171]) "payload"
        (some ("sha256=" ++ bytesToHex (flipBit [171] 0 3))) "secret" = false
    ∧ verifyGitHubSignature (fun _ _ => [171]) "other" none "" = true :=
  ⟨by decide,
   (verifyGitHubSignature_c2 (fun _ _ => [171]) "secret" "payload" (by decide)).1,
   (verifyGitHubSignature_c2 (fun _ _ => [171]) "secret" "payload" (by decide)).2.1
     0 3 (by decide) (by decide) (by decide),
   (verifyGitHubSignature_c2 (fun _ _ => [171]) "secret" "payload" (by decide)).2.2
     "other" none⟩

/-- C8: verification never propagates the comparison's exception — whenever
`timingSafeEqual` throws (modelled by `timingSafeEqualE` returning an error,
as it does on any buffer-length mismatch), `verifyGitHubSignature` returns
`false`. -/
theorem verify_compare_error_false (hm : String → String → List Nat)
    (p : String) (sig : Option String) (secret : String) (e : String)
    (hsec : secret.data.isEmpty = false)
    (hsig : truthyS sig = true)
    (herr : timingSafeEqualE (sig.getD "")
      ("sha256=" ++ bytesToHex (hm secret p)) = Except.error e) :
    verifyGitHubSignature hm p sig secret = false := by
  simp [verifyGitHubSignature, hsec, hsig, herr]

/-- Witness for C8: a header shorter than the expected digest makes the
constant-time compare throw, and verification returns `false`. -/
theorem verify_compare_error_false_witness :
    ("badsecret".data.isEmpty = false)
    ∧ (truthyS (some "short") = true)
    ∧ (timingSafeEqualE ((some "short").getD "")
        ("sha256=" ++ bytesToHex ((fun (_ _ : String) => [(0 : Nat)]) "badsecret" "x"))
        = Except.error "Input buffers must have the same byte length")
    ∧ verifyGitHubSignature (fun _ _ => [(0 : Nat)]) "x" (some "short") "badsecret" = false :=
  ⟨by decide, by decide, rfl,
   verify_compare_error_false (fun _ _ => [(0 : Nat)]) "x" (some "short") "badsecret"
     "Input buffers must have the same byte length" (by decide) (by decide) rfl⟩

/-- C6 counterexample: the parsers use JS `String.replace`, which removes the
first occurrence of `refs/heads/` anywhere in the ref — so a ref that does
NOT start with `refs/heads/` is still modified, contradicting the claim that
such refs pass through unmodified. -/
theorem branch_derivation_counterexample :
    (parseGitHubPush tagRefBody).branch = "refs/tags/v1"
    ∧ strStarts "refs/tags/refs/heads/v1" "refs/heads/" = false
    ∧ (parseGitHubPush tagRefBody).branch ≠ "refs/tags/refs/heads/v1" := by
  decide

/-- C6 (amended): for every provider the trigger's branch is the payload ref
with the FIRST occurrence of `refs/heads/` removed (JS `replace` semantics);
a ref that starts with `refs/heads/` has that leading occurrence stripped,
and a ref containing no occurrence at all is returned unmodified.  Every
body — including one with a tag ref — yields a trigger whose branch is that
derived string. -/
theorem branch_derivation_amended :
    (∀ b : JsonBody,
      (parseGitHubPush b).branch = stripHeads (jsOrStr b.ref "")
      ∧ (parseGitLabPush b).branch = stripHeads (jsOrStr b.ref "")
      ∧ (parseGiteaPush b).branch = stripHeads (jsOrStr b.ref ""))
    ∧ (∀ ref : String, "refs/heads/".data.isPrefixOf ref.data = true →
        stripHeads ref = String.mk (ref.data.drop 11))
    ∧ (∀ ref : String, listContainsSub "refs/heads/".data ref.data = false →
        stripHeads ref = ref) := by
  refine ⟨fun b => ⟨rfl, rfl, rfl⟩, ?_, ?_⟩
  · intro ref h
    unfold stripHeads
    rw [replaceFirstList_of_isPre _ _ h,
      show "refs/heads/".data.length = 11 from by decide]
  · intro ref h
    unfold stripHeads
    rw [replaceFirstList_of_not_contains _ _ h]

/-- Witness for C6's amended statement at concrete refs. -/
theorem branch_derivation_amended_witness :
    ("refs/heads/".data.isPrefixOf "refs/heads/main".data = true)
    ∧ stripHeads "refs/heads/main" = String.mk ("refs/heads/main".data.drop 11)
    ∧ (listContainsSub "refs/heads/".data "refs/tags/v1".data = false)
    ∧ stripHeads "refs/tags/v1" = "refs/tags/v1" :=
  ⟨by decide,
   branch_derivation_amended.2.1 "refs/heads/main" (by decide),
   by decide,
   branch_derivation_amended.2.2 "refs/tags/v1" (by decide)⟩

/-- C9: one poll tick visits every configured repository sequentially and in
list order, whatever each check reports — a `{success:false}` result or a
thrown error for one repository never aborts the scan of the rest. -/
theorem poll_tick_visits_all (check : RepoConfig → CheckOutcome)
    (repos : List RepoConfig) :
    (pollTick check repos).map Prod.fst = repos.map RepoConfig.name
    ∧ pollTick check repos = repos.map (fun r => (r.name, tickEvent (check r))) := by
  constructor
  · induction repos with
    | nil => rfl
    | cons r rest ih =>
        cases hc : check r with
        | ok b a => by_cases hb : 0 < b <;> simp [pollTick, pollCheckBody, hc, hb, ih]
        | failed e => simp [pollTick, pollCheckBody, hc, ih]
        | thrown e => simp [pollTick, pollCheckBody, hc, ih]
  · induction repos with
    | nil => rfl
    | cons r rest ih =>
        cases hc : check r with
        | ok b a =>
            by_cases hb : 0 < b <;>
              simp [pollTick, pollCheckBody, tickEvent, hc, hb, ih]
        | failed e => simp [pollTick, pollCheckBody, tickEvent, hc, ih]
        | thrown e => simp [pollTick, pollCheckBody, tickEvent, hc, ih]

/-- C10: a POST to a `/webhook` path carrying none of the provider-detection
headers and not addressed to a provider-specific path takes the generic
branch: `isValid` is `true` outright — signature verification is skipped
even when a secret is configured — a body with a `ref` field is parsed with
the GitHub shape, and the response is a 200 in every case. -/
theorem generic_webhook_skips_verification
    (secret : String) (repos : List RepoConfig) (hm : String → String → List Nat)
    (req : WebRequest) (body : JsonBody)
    (hmethod : req.method = "POST")
    (hpath : strStarts req.path "/webhook" = true)
    (hp1 : req.path ≠ "/webhook/github")
    (hp2 : req.path ≠ "/webhook/gitlab")
    (hp3 : req.path ≠ "/webhook/gitea")
    (hh1 : truthyS req.githubEvent = false)
    (hh2 : truthyS req.gitlabToken = false)
    (hh3 : truthyS req.giteaEvent = false)
    (hbody : req.body = some body) :
    (detectVerifyParse secret hm req body).1 = true
    ∧ (detectVerifyParse secret hm req body).2
        = (if truthyS body.ref then some (parseGitHubPush body) else none)
    ∧ statusOf (handleFetch { secret := secret, repos := repos } hm req).1 = 200 := by
  have hd : detectVerifyParse secret hm req body
      = (true, if truthyS body.ref then some (parseGitHubPush body) else none) := by
    simp [detectVerifyParse, hh1, hh2, hh3, hp1, hp2, hp3]
  refine ⟨by rw [hd], by rw [hd], ?_⟩
  have hm1 : (req.method == "GET") = false := by simp [hmethod]
  have hm2 : (req.method == "POST") = true := by simp [hmethod]
  have key : handleFetch { secret := secret, repos := repos } hm req
      = (match (if truthyS body.ref then some (parseGitHubPush body) else none) with
         | none => (WebResponse.ignored, none)
         | some info =>
             match findMatchingRepo repos info with
             | none => (WebResponse.noMatchingRepo, none)
             | some r => (WebResponse.triggered r.name info.branch, some r)) := by
    simp [handleFetch, hm1, hm2, hpath, hbody, hd]
  rw [key]
  cases htr : truthyS body.ref
  · simp [statusOf]
  · simp only [if_pos rfl]
    cases hf : findMatchingRepo repos (parseGitHubPush body) <;> simp [statusOf, hf]

/-- Witness for C10: the generic `POST /webhook` request is accepted with a
configured secret and no signature header at all. -/
theorem generic_webhook_skips_verification_witness :
    (demoReq.method = "POST")
    ∧ (strStarts demoReq.path "/webhook" = true)
    ∧ (detectVerifyParse "topsecret" demoHm demoReq
        { ref := some "refs/heads/main", repoName := some "x" }).1 = true
    ∧ statusOf (handleFetch { secret := "topsecret", repos := [] } demoHm demoReq).1 = 200 :=
  ⟨rfl, by decide,
   (generic_webhook_skips_verification "topsecret" [] demoHm demoReq
      { ref := some "refs/heads/main", repoName := some "x" }
      rfl (by decide) (by decide) (by decide) (by decide)
      (by decide) (by decide) (by decide) rfl).1,
   (generic_webhook_skips_verification "topsecret" [] demoHm demoReq
      { ref := some "refs/heads/main", repoName := some "x" }
      rfl (by decide) (by decide) (by decide) (by decide)
      (by decide) (by decide) (by decide) rfl).2.2⟩

/-- C7: trigger normalization is total — a body with every field missing
yields a trigger whose fields are all `null` (and commit count `0`) for each
provider — and a GitLab-shaped body with `object_kind` absent and no `ref`
produces no trigger: the handler answers 200 `ignored` and starts no
deployment. -/
theorem trigger_normalization_total :
    parseGitHubPush emptyBody
      = { provider := "github", event := "push", branch := "", repository := none,
          fullName := none, commits := 0, pusher := none, headCommit := none }
    ∧ parseGitLabPush emptyBody
      = { provider := "gitlab", event := "push", branch := "", repository := none,
          fullName := none, commits := 0, pusher := none, headCommit := none }
    ∧ parseGiteaPush emptyBody
      = { provider := "gitea", event := "push", branch := "", repository := none,
          fullName := none, commits := 0, pusher := none, headCommit := none }
    ∧ (∀ (secret : String) (repos : List RepoConfig) (hm : String → String → List Nat)
         (req : WebRequest) (body : JsonBody),
        req.method = "POST" → req.path = "/webhook/gitlab" → req.body = some body →
        truthyS req.githubEvent = false →
        verifyGitLabToken req.gitlabToken secret = true →
        body.objectKind = none → body.ref = none →
        handleFetch { secret := secret, repos := repos } hm req
            = (WebResponse.ignored, none)
          ∧ statusOf WebResponse.ignored = 200) := by
  refine ⟨by decide, by decide, by decide, ?_⟩
  intro secret repos hm req body hms hps hbd hgh htok hok href
  have hm1 : (req.method == "GET") = false := by simp [hms]
  have hm2 : (req.method == "POST") = true := by simp [hms]
  have hhp : (req.path == "/health") = false := by rw [hps]; decide
  have hsw : strStarts req.path "/webhook" = true := by rw [hps]; decide
  have hgp : (req.path == "/webhook/github") = false := by rw [hps]; decide
  have hlp : (req.path == "/webhook/gitlab") = true := by rw [hps]; decide
  have hrf : truthyS body.ref = false := by rw [href]; rfl
  have hobj : (body.objectKind == some "push") = false := by rw [hok]; rfl
  have hd : detectVerifyParse secret hm req body
      = (verifyGitLabToken req.gitlabToken secret, none) := by
    simp [detectVerifyParse, hgh, hgp, hlp, hobj, hrf]
  refine ⟨?_, rfl⟩
  simp [handleFetch, hm1, hm2, hhp, hsw, hbd, hd, htok]

/-- Witness for C7's handler clause at a concrete non-push GitLab request. -/
theorem trigger_normalization_total_witness :
    (verifyGitLabToken (some "tok") "" = true)
    ∧ (gitlabNonPushReq.body = some emptyBody)
    ∧ handleFetch { secret := "", repos := [] } demoHm gitlabNonPushReq
        = (WebResponse.ignored, none) :=
  ⟨by decide, rfl,
   (trigger_normalization_total.2.2.2 "" [] demoHm gitlabNonPushReq emptyBody
      rfl rfl rfl (by decide) (by decide) rfl rfl).1⟩

/-- C1 is refuted by the code: neither trigger path holds a per-repository
lock, so a trace with two simultaneously in-flight deployments of the same
repository is reachable — two accepted webhook pushes for repo `x` in quick
succession, neither finished.  The claimed invariant would be
`∀ t, Reachable cfg hm t → ∀ r, inFlight t r ≤ 1`; this trace violates it
with `inFlight = 2`. -/
theorem concurrent_deploys_reachable :
    Reachable demoServerCfg demoHm [SysEvent.start "x", SysEvent.start "x"]
    ∧ inFlight [SysEvent.start "x", SysEvent.start "x"] "x" = 2 := by
  constructor
  · have h : (handleFetch demoServerCfg demoHm demoReq).2 = some demoRepo := by decide
    exact Reachable.step
      (Reachable.step Reachable.nil (SysStep.webhook [] demoReq demoRepo h))
      (SysStep.webhook [SysEvent.start "x"] demoReq demoRepo h)
  · decide

theorem runBuilds_all_ok (env : DeployEnv) (repoPath : String) :
    ∀ (cmds : List BuildCmd) (acc : List BuildCmdResult),
    (∀ c ∈ cmds,
      env.execCmd c.command (resolveWorkDir env.home repoPath c.cwd) = Except.ok ()) →
    runBuilds env repoPath cmds acc = (acc.reverse ++ cmds.map mkOkEntry, none) := by
  intro cmds
  induction cmds with
  | nil => intro acc _; simp [runBuilds]
  | cons c rest ih =>
      intro acc h
      have hc := h c (by simp)
      simp only [runBuilds, hc]
      rw [ih _ (fun d hd => h d (by simp [hd]))]
      simp [mkOkEntry]

theorem runBuilds_first_fail (env : DeployEnv) (repoPath : String) :
    ∀ (cmds : List BuildCmd) (i : Nat) (e : String) (acc : List BuildCmdResult)
      (hi : i < cmds.length),
    (∀ j, j < i → ∀ hj : j < cmds.length,
      env.execCmd (cmds.get ⟨j, hj⟩).command
        (resolveWorkDir env.home repoPath (cmds.get ⟨j, hj⟩).cwd) = Except.ok ()) →
    env.execCmd (cmds.get ⟨i, hi⟩).command
      (resolveWorkDir env.home repoPath (cmds.get ⟨i, hi⟩).cwd) = Except.error e →
    runBuilds env repoPath cmds acc
      = (acc.reverse ++ (cmds.take i).map mkOkEntry
          ++ [mkFailEntry (cmds.get ⟨i, hi⟩) e],
         some ("Build failed: " ++ (cmds.get ⟨i, hi⟩).command ++ " - " ++ e)) := by
  intro cmds
  induction cmds with
  | nil => intro i e acc hi; simp at hi
  | cons c rest ih =>
      intro i e acc hi hprev hfail
      cases i with
      | zero =>
          simp only [List.get] at hfail
          simp only [runBuilds, hfail]
          simp [mkFailEntry]
      | succ n =>
          have h0 : env.execCmd c.command (resolveWorkDir env.home repoPath c.cwd)
              = Except.ok () := by
            simpa using hprev 0 (Nat.succ_pos n) (by simp)
          simp only [runBuilds, h0]
          have hn : n < rest.length := by simpa using hi
          rw [ih n e _ hn
            (fun j hj hj2 => by simpa using hprev (j + 1) (by omega) (by simpa using Nat.succ_lt_succ hj2))
            (by simpa using hfail)]
          simp [mkOkEntry]

theorem runBuilds_fatal_iff (env : DeployEnv) (repoPath : String) :
    ∀ (cmds : List BuildCmd) (acc : List BuildCmdResult),
    (∀ a ∈ acc, a.success = true) →
    ((runBuilds env repoPath cmds acc).2.isSome
      ↔ (runBuilds env repoPath cmds acc).1.any (fun b => !b.success) = true) := by
  intro cmds
  induction cmds with
  | nil =>
      intro acc h
      simp only [runBuilds]
      constructor
      · intro hs; simp at hs
      · intro ha
        rw [List.any_eq_true] at ha
        obtain ⟨a, ha1, ha2⟩ := ha
        rw [List.mem_reverse] at ha1
        simp [h a ha1] at ha2
  | cons c rest ih =>
      intro acc h
      cases hc : env.execCmd c.command (resolveWorkDir env.home repoPath c.cwd) with
      | ok u =>
          cases u
          simp only [runBuilds, hc]
          refine ih _ ?_
          intro a ha
          rcases (by simpa using ha : a = _ ∨ a ∈ acc) with h1 | h1
          · rw [h1]
          · exact h a h1
      | error msg =>
          simp only [runBuilds, hc]
          constructor
          · intro _; simp
          · intro _; rfl

theorem deployTail_success_iff (env : DeployEnv) (cfg : RepoConfig)
    (stepsIn : List StepRec) (wasCloned : Bool)
    (hin : stepsIn.any fatalStep = false) :
    ((deployTail env cfg stepsIn wasCloned).success = false
      ↔ (deployTail env cfg stepsIn wasCloned).steps.any fatalStep = true) := by
  have hff := runBuilds_fatal_iff env cfg.path (getBuildCommands cfg) [] (by simp)
  simp only [deployTail]
  by_cases hb : (getBuildCommands cfg).length > 0
  · rw [if_pos hb]
    cases hbr : (runBuilds env cfg.path (getBuildCommands cfg) []).2 with
    | some e =>
        rw [hbr] at hff
        have hany : (runBuilds env cfg.path (getBuildCommands cfg) []).1.any
            (fun b => !b.success) = true := hff.mp rfl
        simp [hbr, List.any_append, hin, fatalStep, hany]
    | none =>
        rw [hbr] at hff
        have hany : (runBuilds env cfg.path (getBuildCommands cfg) []).1.any
            (fun b => !b.success) = false := by
          cases hv : (runBuilds env cfg.path (getBuildCommands cfg) []).1.any
              (fun b => !b.success)
          · rfl
          · exact absurd (hff.mpr hv) (by simp)
        by_cases hreg : (wasCloned && decide (cfg.registerScripts.length > 0)) = true
          <;> by_cases hres : decide (cfg.restartScripts.length > 0) = true
          <;> simp [hbr, hreg, hres, List.any_append, hin, fatalStep, hany]
  · rw [if_neg hb]
    by_cases hreg : (wasCloned && decide (cfg.registerScripts.length > 0)) = true
      <;> by_cases hres : decide (cfg.restartScripts.length > 0) = true
      <;> simp [hreg, hres, List.any_append, hin, fatalStep]

theorem deployFromInstall_success_iff (env : DeployEnv) (cfg : RepoConfig)
    (stepsIn : List StepRec) (wasCloned : Bool)
    (hin : stepsIn.any fatalStep = false) :
    ((deployFromInstall env cfg stepsIn wasCloned).success = false
      ↔ (deployFromInstall env cfg stepsIn wasCloned).steps.any fatalStep = true) := by
  cases hdep : cfg.dependencies with
  | none =>
      simp only [deployFromInstall, hdep]
      exact deployTail_success_iff env cfg _ wasCloned
        (by simp [List.any_append, hin, fatalStep])
  | some d =>
      simp only [deployFromInstall, hdep]
      by_cases hty : (d.depType != "none") = true
      · rw [if_pos hty]
        by_cases hfat : (!env.installDeps.success && !env.installDeps.skipped) = true
        · rw [if_pos hfat]
          simp [List.any_append, hin, fatalStep, hfat]
        · rw [if_neg hfat]
          refine deployTail_success_iff env cfg _ wasCloned ?_
          have hfat2 : (!env.installDeps.success && !env.installDeps.skipped) = false := by
            simpa using hfat
          simp [List.any_append, hin, fatalStep, hfat2]
      · rw [if_neg hty]
        exact deployTail_success_iff env cfg _ wasCloned
          (by simp [List.any_append, hin, fatalStep])

/-- C4 (amended): the terminal `success` flag is `false` exactly when the
recorded steps contain a fatal failure — a failed EnsureRepo, a failed Pull,
a failed-and-not-skipped InstallDependencies, or a failed build command.
Failures of RegisterScripts/RestartScripts entries are recorded in their
step results without affecting `success`, and stop-script failures are only
logged, never recorded (see the counterexample theorem). -/
theorem deploy_success_iff_no_fatal (env : DeployEnv) (cfg : RepoConfig) :
    ((deploy env cfg).success = false
      ↔ (deploy env cfg).steps.any fatalStep = true) := by
  cases hurl : cfg.repoUrl with
  | none =>
      cases hps : env.gitPull.success with
      | false => simp [deploy, hurl, hps, fatalStep]
      | true =>
          cases hch : env.gitPull.changed with
          | false =>
              simp [deploy, hurl, hps, hch, wasClonedIn, isEnsureStep, fatalStep]
          | true =>
              have hred : deploy env cfg
                  = deployFromInstall env cfg [StepRec.gitPull env.gitPull] false := by
                simp [deploy, hurl, hps, hch, wasClonedIn, isEnsureStep]
              rw [hred]
              exact deployFromInstall_success_iff env cfg _ _ (by simp [fatalStep, hps])
  | some u =>
      cases hens : env.ensureRepo.success with
      | false => simp [deploy, hurl, hens, fatalStep]
      | true =>
          cases hps : env.gitPull.success with
          | false => simp [deploy, hurl, hens, hps, fatalStep]
          | true =>
              cases hcl : env.ensureRepo.cloned with
              | true =>
                  have hred : deploy env cfg = deployFromInstall env cfg
                      [StepRec.ensureRepo env.ensureRepo, StepRec.gitPull env.gitPull]
                      true := by
                    simp [deploy, hurl, hens, hps, hcl, wasClonedIn, isEnsureStep]
                  rw [hred]
                  exact deployFromInstall_success_iff env cfg _ _
                    (by simp [fatalStep, hens, hps])
              | false =>
                  cases hch : env.gitPull.changed with
                  | false =>
                      simp [deploy, hurl, hens, hps, hcl, hch, wasClonedIn,
                        isEnsureStep, fatalStep]
                  | true =>
                      have hred : deploy env cfg = deployFromInstall env cfg
                          [StepRec.ensureRepo env.ensureRepo, StepRec.gitPull env.gitPull]
                          false := by
                        simp [deploy, hurl, hens, hps, hcl, hch, wasClonedIn, isEnsureStep]
                      rw [hred]
                      exact deployFromInstall_success_iff env cfg _ _
                        (by simp [fatalStep, hens, hps])

/-- C4 counterexample: in a deployment whose pre-build stop of script `s1`
fails, the terminal result is successful and NO step result records any
failure at all — the stop failure is only logged, contradicting the claim
that StopScripts failures are recorded in their step results. -/
theorem stop_failure_not_recorded :
    (stopFailEnv.stopScript "s1").success = false
    ∧ (deploy stopFailEnv stopCfg).success = true
    ∧ ((deploy stopFailEnv stopCfg).steps.map recordedFailures).flatten = [] := by
  decide

/-- C3: when the pull succeeds reporting no change and EnsureRepo did not
perform a fresh clone, the pipeline terminates right after the pull step
with `skipped = true` and `success = true`, and no later step appends a
record. -/
theorem deploy_skip_fast_path (env : DeployEnv) (cfg : RepoConfig)
    (hens : cfg.repoUrl.isSome = true → env.ensureRepo.success = true)
    (hcl : cfg.repoUrl.isSome = true → env.ensureRepo.cloned = false)
    (hpull : env.gitPull.success = true)
    (hch : env.gitPull.changed = false) :
    (deploy env cfg).skipped = true ∧ (deploy env cfg).success = true
    ∧ (deploy env cfg).steps
        = (match cfg.repoUrl with
           | some _ => [StepRec.ensureRepo env.ensureRepo]
           | none => []) ++ [StepRec.gitPull env.gitPull] := by
  cases hurl : cfg.repoUrl with
  | none =>
      refine ⟨?_, ?_, ?_⟩ <;>
        simp [deploy, hurl, hpull, hch, wasClonedIn, isEnsureStep]
  | some u =>
      have hens2 := hens (by simp [hurl])
      have hcl2 := hcl (by simp [hurl])
      refine ⟨?_, ?_, ?_⟩ <;>
        simp [deploy, hurl, hpull, hch, hens2, hcl2, wasClonedIn, isEnsureStep]

/-- Witness for C3 at a concrete quiet environment. -/
theorem deploy_skip_fast_path_witness :
    (quietEnv.gitPull.success = true) ∧ (quietEnv.gitPull.changed = false)
    ∧ (deploy quietEnv plainCfg).skipped = true
    ∧ (deploy quietEnv plainCfg).success = true :=
  ⟨rfl, rfl,
   (deploy_skip_fast_path quietEnv plainCfg (fun _ => rfl) (fun _ => rfl) rfl rfl).1,
   (deploy_skip_fast_path quietEnv plainCfg (fun _ => rfl) (fun _ => rfl) rfl rfl).2.1⟩

theorem deploy_reaches_install (env : DeployEnv) (cfg : RepoConfig)
    (hens : cfg.repoUrl.isSome = true → env.ensureRepo.success = true)
    (hpull : env.gitPull.success = true)
    (hch : env.gitPull.changed = true) :
    ∃ stepsIn wc, deploy env cfg = deployFromInstall env cfg stepsIn wc
      ∧ stepsIn.all (fun s => !isLifecycleStep s) = true := by
  cases hurl : cfg.repoUrl with
  | none =>
      refine ⟨[StepRec.gitPull env.gitPull], false, ?_, by simp [isLifecycleStep]⟩
      simp [deploy, hurl, hpull, hch, wasClonedIn, isEnsureStep]
  | some u =>
      have hens2 := hens (by simp [hurl])
      refine ⟨[StepRec.ensureRepo env.ensureRepo, StepRec.gitPull env.gitPull],
        env.ensureRepo.cloned, ?_, by simp [isLifecycleStep]⟩
      simp [deploy, hurl, hpull, hch, hens2, wasClonedIn, isEnsureStep]

theorem deployFromInstall_reaches_tail (env : DeployEnv) (cfg : RepoConfig)
    (stepsIn : List StepRec) (wc : Bool)
    (hinst : env.installDeps.success = true ∨ env.installDeps.skipped = true)
    (hlc : stepsIn.all (fun s => !isLifecycleStep s) = true) :
    ∃ stepsIn2, deployFromInstall env cfg stepsIn wc = deployTail env cfg stepsIn2 wc
      ∧ stepsIn2.all (fun s => !isLifecycleStep s) = true := by
  have hfat : (!env.installDeps.success && !env.installDeps.skipped) = false := by
    rcases hinst with h | h <;> simp [h]
  cases hdep : cfg.dependencies with
  | none =>
      refine ⟨stepsIn ++ [StepRec.installDepsSkipped], ?_, ?_⟩
      · simp [deployFromInstall, hdep]
      · rw [List.all_append, hlc]; simp [isLifecycleStep]
  | some d =>
      by_cases hty : (d.depType != "none") = true
      · refine ⟨stepsIn ++ [StepRec.installDeps env.installDeps], ?_, ?_⟩
        · simp [deployFromInstall, hdep, hty, hfat]
        · rw [List.all_append, hlc]; simp [isLifecycleStep]
      · refine ⟨stepsIn ++ [StepRec.installDepsSkipped], ?_, ?_⟩
        · simp [deployFromInstall, hdep, hty]
        · rw [List.all_append, hlc]; simp [isLifecycleStep]

theorem deployTail_all_ok (env : DeployEnv) (cfg : RepoConfig)
    (stepsIn : List StepRec) (wc : Bool)
    (hbne : getBuildCommands cfg ≠ [])
    (hok : ∀ c ∈ getBuildCommands cfg,
      env.execCmd c.command (resolveWorkDir env.home cfg.path c.cwd) = Except.ok ()) :
    (deployTail env cfg stepsIn wc).success = true
    ∧ StepRec.build ((getBuildCommands cfg).map mkOkEntry)
        ∈ (deployTail env cfg stepsIn wc).steps := by
  have hb : (getBuildCommands cfg).length > 0 := List.length_pos.mpr hbne
  have hrb := runBuilds_all_ok env cfg.path (getBuildCommands cfg) [] hok
  simp only [deployTail]
  rw [if_pos hb]
  rw [hrb]
  by_cases hreg : (wc && decide (cfg.registerScripts.length > 0)) = true
    <;> by_cases hres : decide (cfg.restartScripts.length > 0) = true
    <;> simp [hreg, hres]

theorem deployTail_first_fail (env : DeployEnv) (cfg : RepoConfig)
    (stepsIn : List StepRec) (wc : Bool) (i : Nat) (e : String)
    (hi : i < (getBuildCommands cfg).length)
    (hprev : ∀ j, j < i → ∀ hj : j < (getBuildCommands cfg).length,
      env.execCmd ((getBuildCommands cfg).get ⟨j, hj⟩).command
        (resolveWorkDir env.home cfg.path ((getBuildCommands cfg).get ⟨j, hj⟩).cwd)
        = Except.ok ())
    (hfail : env.execCmd ((getBuildCommands cfg).get ⟨i, hi⟩).command
      (resolveWorkDir env.home cfg.path ((getBuildCommands cfg).get ⟨i, hi⟩).cwd)
      = Except.error e)
    (hlc : stepsIn.all (fun s => !isLifecycleStep s) = true) :
    (deployTail env cfg stepsIn wc).success = false
    ∧ (deployTail env cfg stepsIn wc).error = some ("Build failed: "
        ++ ((getBuildCommands cfg).get ⟨i, hi⟩).command ++ " - " ++ e)
    ∧ (deployTail env cfg stepsIn wc).steps.getLast? = some (StepRec.build
        (((getBuildCommands cfg).take i).map mkOkEntry
          ++ [mkFailEntry ((getBuildCommands cfg).get ⟨i, hi⟩) e]))
    ∧ (deployTail env cfg stepsIn wc).steps.all (fun s => !isLifecycleStep s) = true := by
  have hb : (getBuildCommands cfg).length > 0 := lt_of_le_of_lt (Nat.zero_le i) hi
  have hrb := runBuilds_first_fail env cfg.path (getBuildCommands cfg) i e [] hi hprev hfail
  simp only [deployTail]
  rw [if_pos hb]
  rw [hrb]
  refine ⟨rfl, rfl, ?_, ?_⟩
  · simp [List.getLast?_concat]
  · rw [List.all_append, hlc]; simp [isLifecycleStep]

/-- C5: with a non-empty resolved build-command list (and a pipeline that
reaches the build step), the commands run in declared order, each in its
resolved working directory (`resolveWorkDir`): if all succeed, the build
step records one success entry per command in order; the first failure at
index `i` makes the pipeline fail with an error naming that command, the
build step records exactly the `i` preceding successes plus the failing
entry (later commands never run), and no RegisterScripts/RestartScripts
step is ever recorded. -/
theorem deploy_build_commands (env : DeployEnv) (cfg : RepoConfig)
    (hens : cfg.repoUrl.isSome = true → env.ensureRepo.success = true)
    (hpull : env.gitPull.success = true)
    (hch : env.gitPull.changed = true)
    (hinst : env.installDeps.success = true ∨ env.installDeps.skipped = true)
    (hne : getBuildCommands cfg ≠ []) :
    ((∀ c ∈ getBuildCommands cfg,
        env.execCmd c.command (resolveWorkDir env.home cfg.path c.cwd) = Except.ok ()) →
      (deploy env cfg).success = true
      ∧ StepRec.build ((getBuildCommands cfg).map mkOkEntry) ∈ (deploy env cfg).steps)
    ∧ (∀ (i : Nat) (e : String) (hi : i < (getBuildCommands cfg).length),
        (∀ j, j < i → ∀ hj : j < (getBuildCommands cfg).length,
          env.execCmd ((getBuildCommands cfg).get ⟨j, hj⟩).command
            (resolveWorkDir env.home cfg.path ((getBuildCommands cfg).get ⟨j, hj⟩).cwd)
            = Except.ok ()) →
        env.execCmd ((getBuildCommands cfg).get ⟨i, hi⟩).command
          (resolveWorkDir env.home cfg.path ((getBuildCommands cfg).get ⟨i, hi⟩).cwd)
          = Except.error e →
        (deploy env cfg).success = false
        ∧ (deploy env cfg).error = some ("Build failed: "
            ++ ((getBuildCommands cfg).get ⟨i, hi⟩).command ++ " - " ++ e)
        ∧ (deploy env cfg).steps.getLast? = some (StepRec.build
            (((getBuildCommands cfg).take i).map mkOkEntry
              ++ [mkFailEntry ((getBuildCommands cfg).get ⟨i, hi⟩) e]))
        ∧ (deploy env cfg).steps.all (fun s => !isLifecycleStep s) = true) := by
  obtain ⟨s1, wc, hd1, hl1⟩ := deploy_reaches_install env cfg hens hpull hch
  obtain ⟨s2, hd2, hl2⟩ := deployFromInstall_reaches_tail env cfg s1 wc hinst hl1
  rw [hd1, hd2]
  constructor
  · intro hok
    exact deployTail_all_ok env cfg s2 wc hne hok
  · intro i e hi hprev hfail
    exact deployTail_first_fail env cfg s2 wc i e hi hprev hfail hl2

/-- Witness for C5 with two build commands where the second (run in the
`client` subdirectory) fails. -/
theorem deploy_build_commands_witness :
    (buildFailEnv.gitPull.success = true) ∧ (buildFailEnv.gitPull.changed = true)
    ∧ (getBuildCommands buildCfg ≠ [])
    ∧ (deploy buildFailEnv buildCfg).success = false
    ∧ (deploy buildFailEnv buildCfg).error = some "Build failed: make b - exit 1"
    ∧ (deploy buildFailEnv buildCfg).steps.all (fun s => !isLifecycleStep s) = true :=
  ⟨rfl, rfl, by decide,
   ((deploy_build_commands buildFailEnv buildCfg (fun _ => rfl) rfl rfl
        (Or.inl rfl) (by decide)).2 1 "exit 1" (by decide)
      (by
        intro j hj hj2
        interval_cases j
        · rfl)
      rfl).1,
   ((deploy_build_commands buildFailEnv buildCfg (fun _ => rfl) rfl rfl
        (Or.inl rfl) (by decide)).2 1 "exit 1" (by decide)
      (by
        intro j hj hj2
        interval_cases j
        · rfl)
      rfl).2.1,
   ((deploy_build_commands buildFailEnv buildCfg (fun _ => rfl) rfl rfl
        (Or.inl rfl) (by decide)).2 1 "exit 1" (by decide)
      (by
        intro j hj hj2
        interval_cases j
        · rfl)
      rfl).2.2.2⟩

end GitSync
